import Mathlib

/-!
Shallow embedding of the stream-feature negotiation code of the xmpp
repository (bind.go, internal RandomID, ibr2/ibr2.go), together with
theorems checking the specification's claims about it.

JIDs are modelled as opaque strings (a `*jid.JID` pointer becomes
`Option String`).  The XML token stream is modelled at the granularity
the code observes it: the negotiate branches only distinguish a start
element (with its name and attributes) from any other token, and the
results of the external decoder / encoder calls are passed in as
`Except` values.
-/

/-- XML qualified name (`encoding/xml` `Name`): namespace and local part. -/
structure XmlName where
  space : String
  localName : String
deriving DecidableEq, Repr

/-- A token as observed by the negotiate branches: either a start element
(with name and attributes, an attribute being a name/value pair) or any
other token kind (end element, character data, ...), which the code treats
uniformly. -/
inductive XmlToken where
  | startElement (name : XmlName) (attrs : List (XmlName × String))
  | other
deriving DecidableEq, Repr

/-- Stanza IQ type (`stanza.GetIQ` / `SetIQ` / `ResultIQ` / `ErrorIQ`). -/
inductive IQType where
  | get
  | set
  | result
  | error
deriving DecidableEq, Repr

/-- Stanza-level error value (`stanza.Error`), abstracted to its condition. -/
structure StanzaError where
  condition : String
deriving DecidableEq, Repr

/-- Payload of the bind element (`bindPayload`): a requested resource or an
assigned JID (pointer, hence `Option`). -/
structure BindPayload where
  resource : String := ""
  jid : Option String := none
deriving DecidableEq, Repr

/-- The decoded/constructed bind IQ (`bindIQ` embedding `stanza.IQ`):
id, to, from, type, bind payload and optional embedded error. -/
structure BindIQ where
  id : String := ""
  to_ : Option String := none
  from_ : Option String := none
  type : IQType := .get
  bind : BindPayload := {}
  err : Option StanzaError := none
deriving DecidableEq, Repr

/-- Modelled from the spec: the named session-state bits (the `SessionState`
bitmask constants live in session.go, outside the included sources; the
spec names Secure, Authn, Ready and Received as distinct bits). -/
def Secure : Nat := 1

/-- Modelled from the spec: the Authn session-state bit. -/
def Authn : Nat := 2

/-- Modelled from the spec: the Ready session-state bit. -/
def Ready : Nat := 4

/-- Modelled from the spec: the Received (receiving/server role) bit. -/
def Received : Nat := 8

/-- Modelled from the spec: the client stream namespace constant `ns.Client`
(package internal/ns, outside the included sources). -/
def nsClient : String := "jabber:client"

/-- The name the negotiate branches compare against:
`xml.Name\x7bSpace: ns.Client, Local: "iq"\x7d`. -/
def clientIQName : XmlName := ⟨nsClient, "iq"⟩

/-- Modelled from the spec: `internal.GetAttr` (package internal, outside the
included sources) extracts the value of the attribute with the given local
name from a start element's attribute list, empty string when absent. -/
def getAttr (attrs : List (XmlName × String)) (name : String) : String :=
  match attrs.find? (fun a => a.1.localName == name) with
  | some a => a.2
  | none => ""

/-- Stream-level error constants used by bind (`stream.BadFormat`,
`stream.UndefinedCondition`; package stream, opaque error values). -/
inductive StreamErrorKind where
  | badFormat
  | undefinedCondition
deriving DecidableEq, Repr

/-- The error returned by a bind negotiate branch: errors propagated from
the token reader, decoder or writer, stream errors, a stanza error pointer
(`resp.Err`, line 215) or value (line 217), or the propagated non-stanza
allocation error (line 144). -/
inductive NegotiateError where
  | readError
  | decodeError
  | writeError
  | streamError (k : StreamErrorKind)
  | stanzaErrorPtr (e : Option StanzaError)
  | stanzaErrorVal (e : StanzaError)
  | allocOtherError
deriving DecidableEq, Repr

/-- Outcome of the server-side resource allocation (the configured `server`
function, or `session.RemoteAddr().WithResource(internal.RandomID())`):
a JID pointer on success, a `stanza.Error` value, or any other error. -/
inductive AllocResult where
  | ok (j : Option String)
  | stanzaError (e : StanzaError)
  | otherError
deriving DecidableEq, Repr

/-- Result of the server branch of bind's Negotiate: the state-mask delta,
the replacement transport (always nil in bind), the response written to the
stream (if any) and the returned error. -/
structure ServerBindResult where
  mask : Nat
  rw : Option Unit
  written : Option BindIQ
  err : Option NegotiateError
deriving DecidableEq, Repr

/-- Result of the client branch of bind's Negotiate: the state-mask delta,
the replacement transport (always nil in bind), the session origin after
the branch, and the returned error. -/
structure ClientBindResult where
  mask : Nat
  rw : Option Unit
  origin : Option String
  err : Option NegotiateError
deriving DecidableEq, Repr

/-- Server branch of bind's Negotiate (bind.go lines 115-165): read one
token (`readTok` is the outcome of `d.Token()`); a non-start token or a
start element that is not the client-namespace iq is `stream.BadFormat`;
else decode (`decoded` is the outcome of `d.DecodeElement`), extract the
request id attribute, run allocation, and either propagate a non-stanza
allocation error or write a result IQ carrying the assigned JID or the
embedded stanza error (`writeRes` is the outcome of `resp.WriteXML`). -/
def bindServerNegotiate (readTok : Except Unit XmlToken)
    (decoded : Except Unit BindIQ) (alloc : AllocResult)
    (writeRes : Except Unit Unit) : ServerBindResult :=
  match readTok with
  | .error _ => ⟨0, none, none, some .readError⟩
  | .ok .other => ⟨0, none, none, some (.streamError .badFormat)⟩
  | .ok (.startElement name attrs) =>
    if name = clientIQName then
      match decoded with
      | .error _ => ⟨0, none, none, some .decodeError⟩
      | .ok resReq =>
        let iqid := getAttr attrs "id"
        match alloc with
        | .otherError => ⟨0, none, none, some .allocOtherError⟩
        | .stanzaError e =>
          let resp : BindIQ :=
            { id := iqid, from_ := resReq.to_, to_ := resReq.from_,
              type := .result, err := some e }
          ⟨0, none, some resp,
            match writeRes with | .error _ => some .writeError | .ok _ => none⟩
        | .ok j =>
          let resp : BindIQ :=
            { id := iqid, from_ := resReq.to_, to_ := resReq.from_,
              type := .result, bind := { jid := j } }
          ⟨0, none, some resp,
            match writeRes with | .error _ => some .writeError | .ok _ => none⟩
    else ⟨0, none, none, some (.streamError .badFormat)⟩

/-- Client branch of bind's Negotiate (bind.go lines 168-219): after writing
the request (`writeRes`), read one token; non-start or wrong-name tokens are
`stream.BadFormat`; decode the response; an id mismatch is
`stream.UndefinedCondition` with the origin untouched; a result type sets
the origin to the JID of the response payload and returns the Ready delta;
an error type returns `resp.Err`; anything else is a bad-request stanza
error. -/
def bindClientNegotiate (origin : Option String) (reqID : String)
    (writeRes : Except Unit Unit) (readTok : Except Unit XmlToken)
    (decoded : Except Unit BindIQ) : ClientBindResult :=
  match writeRes with
  | .error _ => ⟨0, none, origin, some .writeError⟩
  | .ok _ =>
    match readTok with
    | .error _ => ⟨0, none, origin, some .readError⟩
    | .ok .other => ⟨0, none, origin, some (.streamError .badFormat)⟩
    | .ok (.startElement name _) =>
      if name = clientIQName then
        match decoded with
        | .error _ => ⟨0, none, origin, some .decodeError⟩
        | .ok resp =>
          if resp.id ≠ reqID then
            ⟨0, none, origin, some (.streamError .undefinedCondition)⟩
          else if resp.type = .result then
            ⟨Ready, none, resp.bind.jid, none⟩
          else if resp.type = .error then
            ⟨0, none, origin, some (.stanzaErrorPtr resp.err)⟩
          else
            ⟨0, none, origin, some (.stanzaErrorVal ⟨"bad-request"⟩)⟩
      else ⟨0, none, origin, some (.streamError .badFormat)⟩

/-- The payload token stream handed to the IQ wrapper: either the tokens of
the embedded error or the tokens of the bind payload. -/
inductive IQPayload where
  | errTokens (e : StanzaError)
  | bindTokens (p : BindPayload)
deriving DecidableEq, Repr

/-- The full argument list `bindIQ.TokenReader` passes to `stanza.WrapIQ`
when serializing a bind IQ: only the To address, the type, and the payload
reader.  The bytes written to the stream are a function of exactly these
arguments. -/
structure WrapIQArgs where
  to_ : Option String
  type : IQType
  payload : IQPayload
deriving DecidableEq, Repr

/-- Serialization entry point `bindIQ.TokenReader` (bind.go lines 53-59):
`stanza.WrapIQ(biq.IQ.To, biq.IQ.Type, biq.Err.TokenReader())` when an
error is embedded, else `stanza.WrapIQ(biq.IQ.To, biq.IQ.Type,
biq.Bind.TokenReader())`.  The ID and From fields are not passed. -/
def bindIQTokenReader (biq : BindIQ) : WrapIQArgs :=
  match biq.err with
  | some e => ⟨biq.to_, biq.type, .errTokens e⟩
  | none => ⟨biq.to_, biq.type, .bindTokens biq.bind⟩

/-- A challenge of the ibr2 package.  Modelled from the spec: a challenge
type is a string identifier (the `Challenge` struct is declared outside the
included sources; ibr2.go only uses its string field `Type`). -/
structure Challenge where
  type : String
deriving DecidableEq, Repr

/-- The loop of `listFunc` (ibr2.go lines 33-51): iterate the supplied
challenges, skip a challenge whose type was already seen, otherwise emit
its type and record it as seen.  Returns the emitted challenge types in
order (the `seen` map is modelled as the list of recorded types). -/
def ibr2ListLoop (seen : List String) : List Challenge → List String
  | [] => []
  | c :: cs =>
    if c.type ∈ seen then ibr2ListLoop seen cs
    else c.type :: ibr2ListLoop (c.type :: seen) cs

/-- Challenge types emitted by `listFunc` for the supplied challenge list. -/
def ibr2ListChallenges (challenges : List Challenge) : List String :=
  ibr2ListLoop [] challenges

/-- Spec-side definition for comparison: deduplication that keeps the first
occurrence of each element, preserving first-seen order. -/
def specFirstSeenDedup : List String → List String
  | [] => []
  | c :: cs => c :: specFirstSeenDedup (cs.filter (fun x => x ≠ c))
termination_by l => l.length
decreasing_by
  simp only [List.length_cons]
  exact Nat.lt_succ_of_le (List.length_filter_le _ _)

/-- The compatibility gate of `parseFunc` (ibr2.go lines 71-84): build one
deduplicated aggregate of the locally supported challenge types and the
peer-advertised types (the Go map `m`, modelled as a `Finset`), and report
supported iff its size is at most the length of the supplied challenge
list. -/
def ibr2ParseSupported (challenges : List Challenge) (peer : List String) : Bool :=
  decide ((challenges.map Challenge.type ++ peer).toFinset.card ≤ challenges.length)

/-- Parse phase of the ibr2 feature (ibr2.go lines 60-86): on a decode
failure return (req=false, supported=false, the error); otherwise
(req=false, the compatibility gate, no error).  `decoded` is the outcome of
`d.DecodeElement`, carrying the peer's advertised challenge-type list. -/
def ibr2ParseFunc (challenges : List Challenge)
    (decoded : Except Unit (List String)) : Bool × Bool × Option Unit :=
  match decoded with
  | .error _ => (false, false, some ())
  | .ok peer => (false, ibr2ParseSupported challenges peer, none)

/-- Outcome of the ibr2 negotiate phase: either a normal return of
(state-mask delta, replacement transport, error) or the `panic` of the
unimplemented remainder. -/
inductive Ibr2NegotiateOutcome where
  | returns (mask : Nat) (rw : Option Unit) (err : Option Unit)
  | panics
deriving DecidableEq, Repr

/-- Negotiate phase of the ibr2 feature (ibr2.go lines 88-102): compute the
server role from the session state's Received bit; when not the server and
the parse phase reported unsupported, return zero mask, no transport and no
error; every other path reaches the `panic("not yet supported")` stub. -/
def ibr2NegotiateFunc (sessionState : Nat) (supported : Bool) :
    Ibr2NegotiateOutcome :=
  let server := decide (sessionState &&& Received = Received)
  if !server && !supported then .returns 0 none none else .panics

/-- The sixteen lowercase hexadecimal digits used by Go's percent-x verb. -/
def hexAlphabet : List Char := "0123456789abcdef".toList

/-- The lowercase hexadecimal digit of the low four bits of `k`. -/
def hexDigit (k : Nat) : Char :=
  hexAlphabet.get ⟨k % 16, by
    have h : hexAlphabet.length = 16 := by decide
    rw [h]
    exact Nat.mod_lt k (by decide)⟩

/-- Hexadecimal encoding of one byte (value below 256): high nibble then
low nibble, as Go's percent-x verb prints it. -/
def byteHex (b : Nat) : List Char := [hexDigit (b / 16), hexDigit (b % 16)]

/-- Hexadecimal encoding of a byte sequence, as Go's percent-x verb. -/
def bytesHex : List Nat → List Char
  | [] => []
  | b :: bs => byteHex b ++ bytesHex bs

/-- RandomID (internal package, bind.go source lines 238-245): allocate a
buffer of n/2 + n%2 bytes, fill it from the entropy source (`read` models
`rand.Read` on a buffer of the given size; `Except.error` is the panic on
a failed read), hex-encode it and truncate to n characters. -/
def RandomID (n : Nat) (read : Nat → Except Unit (List Nat)) :
    Except Unit (List Char) :=
  match read (n / 2 + n % 2) with
  | .error _ => .error ()
  | .ok bs => .ok ((bytesHex bs).take n)

lemma mem_specFirstSeenDedup (t : String) (l : List String) :
    t ∈ specFirstSeenDedup l ↔ t ∈ l := by
  induction l using specFirstSeenDedup.induct with
  | case1 => simp [specFirstSeenDedup]
  | case2 c cs ih =>
    rw [specFirstSeenDedup]
    simp only [List.mem_cons, ih, List.mem_filter, decide_eq_true_eq]
    by_cases h : t = c
    · simp [h]
    · simp [h]

lemma nodup_specFirstSeenDedup (l : List String) : (specFirstSeenDedup l).Nodup := by
  induction l using specFirstSeenDedup.induct with
  | case1 => simp [specFirstSeenDedup]
  | case2 c cs ih =>
    rw [specFirstSeenDedup, List.nodup_cons]
    refine ⟨?_, ih⟩
    rw [mem_specFirstSeenDedup]
    simp [List.mem_filter]

lemma count_specFirstSeenDedup (t : String) (l : List String) :
    (specFirstSeenDedup l).count t = if t ∈ l then 1 else 0 := by
  by_cases h : t ∈ l
  · rw [if_pos h]
    exact List.count_eq_one_of_mem (nodup_specFirstSeenDedup l)
      ((mem_specFirstSeenDedup t l).mpr h)
  · rw [if_neg h]
    exact List.count_eq_zero.mpr (fun hm => h ((mem_specFirstSeenDedup t l).mp hm))

lemma ibr2ListLoop_eq (cs : List Challenge) : ∀ seen : List String,
    ibr2ListLoop seen cs =
      specFirstSeenDedup ((cs.map Challenge.type).filter (fun t => decide (t ∉ seen))) := by
  induction cs with
  | nil => intro seen; simp [ibr2ListLoop, specFirstSeenDedup]
  | cons c cs ih =>
    intro seen
    by_cases h : c.type ∈ seen
    · rw [ibr2ListLoop, if_pos h, ih]
      simp [List.filter_cons, h]
    · rw [ibr2ListLoop, if_neg h, ih (c.type :: seen)]
      have hhead : (((c :: cs).map Challenge.type).filter (fun t => decide (t ∉ seen))) =
          c.type :: ((cs.map Challenge.type).filter (fun t => decide (t ∉ seen))) := by
        simp [List.filter_cons, h]
      rw [hhead, specFirstSeenDedup]
      congr 1
      rw [List.filter_filter]
      have hp : (fun a => decide (a ∉ c.type :: seen)) =
          (fun a => decide (a ≠ c.type) && decide (a ∉ seen)) := by
        funext a
        by_cases h1 : a = c.type <;> by_cases h2 : a ∈ seen <;> simp [h1, h2]
      rw [hp]

lemma length_bytesHex (bs : List Nat) : (bytesHex bs).length = 2 * bs.length := by
  induction bs with
  | nil => rfl
  | cons b bs ih => simp [bytesHex, byteHex, ih]; omega

lemma hexDigit_mem (k : Nat) : hexDigit k ∈ hexAlphabet := by
  rw [hexDigit]
  exact List.get_mem _ _ _

lemma mem_bytesHex (c : Char) (bs : List Nat) (h : c ∈ bytesHex bs) :
    c ∈ hexAlphabet := by
  induction bs with
  | nil => simp [bytesHex] at h
  | cons b bs ih =>
    simp only [bytesHex, List.mem_append] at h
    rcases h with h | h
    · have h2 : c = hexDigit (b / 16) ∨ c = hexDigit (b % 16) := by
        simpa [byteHex] using h
      rcases h2 with rfl | rfl <;> exact hexDigit_mem _
    · exact ih h

/-- C1: in the client branch of bind's Negotiate, a response IQ whose id
differs from the generated request id fails negotiation with the
undefined-condition stream error, leaving the session origin unchanged
(and a zero state delta). -/
theorem bind_client_id_mismatch (origin : Option String) (reqID : String)
    (attrs : List (XmlName × String)) (resp : BindIQ) (hid : resp.id ≠ reqID) :
    bindClientNegotiate origin reqID (Except.ok ())
      (Except.ok (.startElement clientIQName attrs)) (Except.ok resp) =
      ⟨0, none, origin, some (.streamError .undefinedCondition)⟩ := by
  simp [bindClientNegotiate, hid]

/-- Witness for C1 at a concrete input: request id X, response id Y. -/
theorem bind_client_id_mismatch_witness :
    bindClientNegotiate (some "old@example.net/r") "X" (Except.ok ())
      (Except.ok (.startElement clientIQName []))
      (Except.ok ({ id := "Y", type := .result } : BindIQ)) =
      ⟨0, none, some "old@example.net/r", some (.streamError .undefinedCondition)⟩ :=
  bind_client_id_mismatch _ _ _ _ (by decide)

/-- C2: in the client branch of bind's Negotiate, a response IQ with
matching id and result type sets the session origin to exactly the JID of
the server's bind payload and returns exactly the Ready state delta, with
no error and no replacement transport. -/
theorem bind_client_success (origin : Option String) (reqID : String)
    (attrs : List (XmlName × String)) (resp : BindIQ)
    (hid : resp.id = reqID) (hty : resp.type = IQType.result) :
    bindClientNegotiate origin reqID (Except.ok ())
      (Except.ok (.startElement clientIQName attrs)) (Except.ok resp) =
      ⟨Ready, none, resp.bind.jid, none⟩ := by
  simp [bindClientNegotiate, hid, hty]

/-- Witness for C2 at a concrete input: matching id, result type, JID
romeo at example.net slash abc assigned by the server. -/
theorem bind_client_success_witness :
    bindClientNegotiate none "X" (Except.ok ())
      (Except.ok (.startElement clientIQName []))
      (Except.ok ({ id := "X", type := .result,
                    bind := { jid := some "romeo@example.net/abc" } } : BindIQ)) =
      ⟨Ready, none, some "romeo@example.net/abc", none⟩ :=
  bind_client_success none "X" [] _ rfl rfl

/-- C7: in the server branch of bind's Negotiate, a token that is not a
start element, or a start element whose name is not the client-namespace
iq, aborts negotiation with the bad-format stream error and no response is
written. -/
theorem bind_server_bad_format (tok : XmlToken) (decoded : Except Unit BindIQ)
    (alloc : AllocResult) (writeRes : Except Unit Unit)
    (h : tok = XmlToken.other ∨
      ∃ name attrs, tok = XmlToken.startElement name attrs ∧ name ≠ clientIQName) :
    bindServerNegotiate (Except.ok tok) decoded alloc writeRes =
      ⟨0, none, none, some (.streamError .badFormat)⟩ := by
  rcases h with h | ⟨name, attrs, rfl, hname⟩
  · subst h; rfl
  · simp [bindServerNegotiate, hname]

/-- Witness for C7 at a concrete input: a non-start-element token. -/
theorem bind_server_bad_format_witness :
    bindServerNegotiate (Except.ok XmlToken.other) (Except.error ())
      AllocResult.otherError (Except.error ()) =
      ⟨0, none, none, some (.streamError .badFormat)⟩ :=
  bind_server_bad_format _ _ _ _ (Or.inl rfl)

/-- C5: in the server branch of bind's Negotiate, an allocation failure
that is a stanza error value is embedded in the response written to the
client and Negotiate returns no error, while any other allocation failure
is returned from Negotiate with no response written. -/
theorem bind_server_alloc_errors (attrs : List (XmlName × String))
    (resReq : BindIQ) (e : StanzaError) :
    ((bindServerNegotiate (Except.ok (.startElement clientIQName attrs))
        (Except.ok resReq) (AllocResult.stanzaError e) (Except.ok ())).err = none ∧
      (bindServerNegotiate (Except.ok (.startElement clientIQName attrs))
        (Except.ok resReq) (AllocResult.stanzaError e) (Except.ok ())).written =
        some { id := getAttr attrs "id", to_ := resReq.from_, from_ := resReq.to_,
               type := .result, err := some e }) ∧
    bindServerNegotiate (Except.ok (.startElement clientIQName attrs))
        (Except.ok resReq) AllocResult.otherError (Except.ok ()) =
      ⟨0, none, none, some .allocOtherError⟩ := by
  refine ⟨⟨?_, ?_⟩, ?_⟩ <;> simp [bindServerNegotiate]

/-- C4 (code bug): the server branch builds its response with the request's
id (and the request's to-address as from), but the serialization path
`bindIQ.TokenReader` hands only the To and Type fields to `stanza.WrapIQ`:
two bind requests differing only in their id attribute produce responses
whose complete serialization inputs are identical, so the stream output
cannot echo the request id, even though the in-memory responses carry the
ids X and Y respectively. -/
theorem bind_server_response_drops_id :
    ((bindServerNegotiate
        (Except.ok (.startElement clientIQName [(⟨"", "id"⟩, "X")]))
        (Except.ok ({} : BindIQ))
        (AllocResult.ok (some "juliet@example.com/balcony"))
        (Except.ok ())).written.map bindIQTokenReader =
      (bindServerNegotiate
        (Except.ok (.startElement clientIQName [(⟨"", "id"⟩, "Y")]))
        (Except.ok ({} : BindIQ))
        (AllocResult.ok (some "juliet@example.com/balcony"))
        (Except.ok ())).written.map bindIQTokenReader) ∧
    ((bindServerNegotiate
        (Except.ok (.startElement clientIQName [(⟨"", "id"⟩, "X")]))
        (Except.ok ({} : BindIQ))
        (AllocResult.ok (some "juliet@example.com/balcony"))
        (Except.ok ())).written.map BindIQ.id = some "X") ∧
    ((bindServerNegotiate
        (Except.ok (.startElement clientIQName [(⟨"", "id"⟩, "Y")]))
        (Except.ok ({} : BindIQ))
        (AllocResult.ok (some "juliet@example.com/balcony"))
        (Except.ok ())).written.map BindIQ.id = some "Y") :=
  ⟨rfl, rfl, rfl⟩

/-- C6: the list phase of the ibr2 feature emits each distinct challenge
type exactly once, in first-seen order of the supplied list: the emitted
list equals the spec-side first-seen deduplication of the supplied types,
and every supplied type has count one in it. -/
theorem ibr2_list_first_seen_dedup (cs : List Challenge) :
    ibr2ListChallenges cs = specFirstSeenDedup (cs.map Challenge.type) ∧
    ∀ t : String, (ibr2ListChallenges cs).count t =
      if t ∈ cs.map Challenge.type then 1 else 0 := by
  have h : ibr2ListChallenges cs = specFirstSeenDedup (cs.map Challenge.type) := by
    rw [ibr2ListChallenges, ibr2ListLoop_eq]
    congr 1
    simp
  exact ⟨h, fun t => by rw [h, count_specFirstSeenDedup]⟩

/-- C3 fails as stated: with the duplicate local list with types a, a and
the peer list with type b, the parse phase reports supported, yet the
deduplicated union has two types while only one distinct challenge type is
locally supported. -/
theorem ibr2_parse_gate_counterexample :
    (ibr2ParseFunc [⟨"a"⟩, ⟨"a"⟩] (Except.ok ["b"])).2.1 = true ∧
    ¬ ((([⟨"a"⟩, ⟨"a"⟩] : List Challenge).map Challenge.type ++ ["b"]).toFinset.card ≤
        (([⟨"a"⟩, ⟨"a"⟩] : List Challenge).map Challenge.type).toFinset.card) := by
  constructor
  · decide
  · decide

/-- C3 amended: the parse phase reports supported iff the size of the
deduplicated union of local and peer challenge types is at most the length
of the supplied local challenge list (duplicate entries counted), and it
returns no error on any successfully decoded peer list, erring only on a
decode failure. -/
theorem ibr2_parse_gate_amended (cs : List Challenge) (peer : List String) :
    ((ibr2ParseFunc cs (Except.ok peer)).2.1 = true ↔
      (cs.map Challenge.type ++ peer).toFinset.card ≤ cs.length) ∧
    (ibr2ParseFunc cs (Except.ok peer)).2.2 = none ∧
    (ibr2ParseFunc cs (Except.error ())).2.2 = some () := by
  refine ⟨?_, rfl, rfl⟩
  simp [ibr2ParseFunc, ibr2ParseSupported]

/-- C10: the parse phase of the ibr2 feature reports the feature as not
mandatory on every input, decode failures included. -/
theorem ibr2_parse_never_mandatory (cs : List Challenge)
    (decoded : Except Unit (List String)) :
    (ibr2ParseFunc cs decoded).1 = false := by
  cases decoded <;> rfl

/-- C8: in the ibr2 negotiate phase, an initiating (non-Received) session
whose parse phase reported the peer unsupported returns no error, a zero
state-mask delta and no replacement transport. -/
theorem ibr2_negotiate_skip_unsupported (st : Nat)
    (h : st &&& Received ≠ Received) :
    ibr2NegotiateFunc st false = .returns 0 none none := by
  simp [ibr2NegotiateFunc, h]

/-- Witness for C8 at a concrete input: session state zero. -/
theorem ibr2_negotiate_skip_unsupported_witness :
    ibr2NegotiateFunc 0 false = .returns 0 none none :=
  ibr2_negotiate_skip_unsupported 0 (by decide)

/-- C9: when the entropy source fills the requested buffer, RandomID
returns a string of exactly n lowercase hexadecimal characters; when the
entropy source fails, RandomID fails (the panic) rather than returning a
default or shortened identifier. -/
theorem RandomID_spec (n : Nat) (read : Nat → Except Unit (List Nat)) :
    (∀ bs, read (n / 2 + n % 2) = Except.ok bs → bs.length = n / 2 + n % 2 →
      ∃ s, RandomID n read = Except.ok s ∧ s.length = n ∧
        ∀ c ∈ s, c ∈ hexAlphabet) ∧
    (read (n / 2 + n % 2) = Except.error () → RandomID n read = Except.error ()) := by
  constructor
  · intro bs hok hlen
    refine ⟨(bytesHex bs).take n, ?_, ?_, ?_⟩
    · rw [RandomID, hok]
    · rw [List.length_take, length_bytesHex, hlen]
      omega
    · intro c hc
      exact mem_bytesHex c bs (List.take_subset _ _ hc)
  · intro herr
    rw [RandomID, herr]

/-- Witness for C9 at a concrete input: n equal three, entropy bytes 171
and 5, giving the three-character prefix of ab05. -/
theorem RandomID_spec_witness :
    ∃ s, RandomID 3 (fun _ => Except.ok [171, 5]) = Except.ok s ∧
      s.length = 3 ∧ ∀ c ∈ s, c ∈ hexAlphabet :=
  (RandomID_spec 3 (fun _ => Except.ok [171, 5])).1 [171, 5] rfl rfl
